import Mathlib

/-!
# Brokerage connection management — verification development

Shallow embedding of the brokerage-connection subsystem of the
trading-dashboard repository.  The connection-status string constants and the
client-side handlers are translated from
`frontend/src/app/configuration/configuration-content.tsx`; the backend
lifecycle operations (Secret Codec, Connection Validator, Connection Store,
Connection Lifecycle Manager) are not part of the sources and are modelled
from the specification (spec.md §3, §4, §6, §7).
-/

namespace Brokerage

/-! ## Connection status constants
Mirrored from `configuration-content.tsx` lines 63–69 (which mirror the
backend's `src/constants.py`).  The source keeps statuses as plain strings. -/

def CONNECTION_STATUS_CONNECTED : String := "connected"

def CONNECTION_STATUS_DISCONNECTED : String := "disconnected"

def CONNECTION_STATUS_ERROR : String := "error"

def CONNECTION_STATUS_PENDING : String := "pending"

def CONNECTION_STATUS_TESTING : String := "testing"

def CONNECTION_STATUS_INVALID_CREDENTIALS : String := "invalid_credentials"

def CONNECTION_STATUS_BROKER_UNAVAILABLE : String := "broker_unavailable"

/-- The closed set of the seven defined connection statuses (spec.md §4.2). -/
def allConnectionStatuses : List String :=
  [CONNECTION_STATUS_PENDING, CONNECTION_STATUS_TESTING, CONNECTION_STATUS_CONNECTED,
   CONNECTION_STATUS_DISCONNECTED, CONNECTION_STATUS_INVALID_CREDENTIALS,
   CONNECTION_STATUS_BROKER_UNAVAILABLE, CONNECTION_STATUS_ERROR]

/-- The four terminal statuses a test can produce (spec.md §4.2, §4.3). -/
def terminalTestStatuses : List String :=
  [CONNECTION_STATUS_CONNECTED, CONNECTION_STATUS_INVALID_CREDENTIALS,
   CONNECTION_STATUS_BROKER_UNAVAILABLE, CONNECTION_STATUS_ERROR]

/-! ## Data model -/

/-- Broker reference data, as in the `Broker` interface of
`configuration-content.tsx` lines 31–37. -/
structure Broker where
  id : Nat
  name : String
  base_url : String
  streaming_url : String
  is_live_mode : Bool
deriving DecidableEq

/-- Modelled from the spec: error taxonomy of spec.md §7 (the backend raising
these errors is not under the sources). -/
inductive ApiError where
  | validationError
  | conflictError
  | notFoundError
  | decryptionError
deriving DecidableEq

/-- Ciphertext produced by the Secret Codec: an integrity tag plus the
key-shifted code points of the plaintext. -/
structure Ciphertext where
  tag : Nat
  body : List Nat
deriving DecidableEq

/-- Modelled from the spec: Secret Codec `encrypt` (spec.md §4.1), symmetric and
keyed by a process-wide secret; the implementation is not under the sources.
The tag authenticates the plaintext under the key. -/
def encrypt (key : Nat) (s : String) : Ciphertext :=
  { tag := s.data.foldl (fun a c => a * 31 + c.toNat) (key + 7),
    body := s.data.map (fun c => c.toNat + key) }

/-- Modelled from the spec: Secret Codec `decrypt` (spec.md §4.1); fails with
`DecryptionError` if the ciphertext is corrupt, i.e. is not a value this key's
`encrypt` produces.  The implementation is not under the sources. -/
def decrypt (key : Nat) (ct : Ciphertext) : Except ApiError String :=
  if encrypt key ⟨ct.body.map (fun n => Char.ofNat (n - key))⟩ = ct then
    .ok ⟨ct.body.map (fun n => Char.ofNat (n - key))⟩
  else
    .error .decryptionError

/-- Credential fields as sent by the client (`handleAddConnection` body,
`configuration-content.tsx` lines 224–233): absent fields are `null`. -/
structure Credentials where
  api_key : Option String
  api_secret : Option String
  access_token : Option String
  refresh_token : Option String
deriving DecidableEq

/-- Modelled from the spec: "at least one of `api_key`/`api_secret` OR a valid
`access_token` must be present" (spec.md §3); empty strings do not count. -/
def Credentials.hasCredential (cr : Credentials) : Bool :=
  cr.api_key.getD "" != "" || cr.api_secret.getD "" != "" ||
    cr.access_token.getD "" != ""

/-- Modelled from the spec: a persisted `BrokerageConnection` row (spec.md §3),
with encrypted-at-rest credential columns (spec.md §6). -/
structure Connection where
  id : Nat
  user_id : Nat
  broker_id : Nat
  encrypted_api_key : Option Ciphertext
  encrypted_api_secret : Option Ciphertext
  encrypted_access_token : Option Ciphertext
  encrypted_refresh_token : Option Ciphertext
  token_expires_at : Option Nat
  connection_status : String
  last_connected : Option Nat
deriving DecidableEq

/-- Modelled from the spec: the Connection Store's persisted state (spec.md
§4.4): the connection rows plus the next fresh row id. -/
structure Store where
  conns : List Connection
  nextId : Nat
deriving DecidableEq

/-- Well-formedness of the persisted state: row ids are below the id counter
and pairwise distinct. -/
def Store.WF (st : Store) : Prop :=
  (∀ c ∈ st.conns, c.id < st.nextId) ∧ st.conns.Pairwise (fun a b => a.id ≠ b.id)

/-- Broker Registry lookup (spec.md §4.4): `getBroker(brokerId)`. -/
def getBroker (registry : List Broker) (brokerId : Nat) : Option Broker :=
  registry.find? (fun b => b.id == brokerId)

/-! ## Connection Validator -/

/-- The outcome of the single probe request against the broker endpoint, the
only external input of the Connection Validator (spec.md §4.3). -/
inductive ProbeOutcome where
  | networkUnreachable
  | connectionRefused
  | dnsFailure
  | timeout
  | http (status : Nat) (wellFormedBody : Bool)
deriving DecidableEq

/-- Modelled from the spec: Connection Validator `validate(baseUrl,
credentials, timeout)` composed with the Lifecycle Manager's outcome mapping
(spec.md §4.3); the implementation is not under the sources.  The base URL,
credentials and timeout parametrize the network probe, whose result is the
`ProbeOutcome`. -/
def validate (_baseUrl : String) (_credentials : Credentials) (_timeoutMs : Nat)
    (probe : ProbeOutcome) : String :=
  match probe with
  | .networkUnreachable => CONNECTION_STATUS_BROKER_UNAVAILABLE
  | .connectionRefused => CONNECTION_STATUS_BROKER_UNAVAILABLE
  | .dnsFailure => CONNECTION_STATUS_BROKER_UNAVAILABLE
  | .timeout => CONNECTION_STATUS_BROKER_UNAVAILABLE
  | .http status wellFormedBody =>
    if status = 401 ∨ status = 403 then CONNECTION_STATUS_INVALID_CREDENTIALS
    else if 200 ≤ status ∧ status ≤ 299 then
      if wellFormedBody then CONNECTION_STATUS_CONNECTED else CONNECTION_STATUS_ERROR
    else CONNECTION_STATUS_ERROR

/-! ## Connection Lifecycle Manager -/

/-- Decrypt an optional stored credential column. -/
def decryptField (key : Nat) : Option Ciphertext → Except ApiError (Option String)
  | none => .ok none
  | some ct => (decrypt key ct).map some

/-- Decrypt all four stored credential columns of a row, propagating the
first decryption failure. -/
def decryptCredentials (key : Nat) (c : Connection) : Except ApiError Credentials :=
  match decryptField key c.encrypted_api_key, decryptField key c.encrypted_api_secret,
      decryptField key c.encrypted_access_token,
      decryptField key c.encrypted_refresh_token with
  | .error e, _, _, _ => .error e
  | _, .error e, _, _ => .error e
  | _, _, .error e, _ => .error e
  | _, _, _, .error e => .error e
  | .ok apiKey, .ok apiSecret, .ok accessToken, .ok refreshToken =>
    .ok ⟨apiKey, apiSecret, accessToken, refreshToken⟩

/-- Persist the outcome of a test on a found row: write the mapped status and,
on success, stamp `last_connected` with the current time. -/
def finishTest (probe : ProbeOutcome) (now : Nat) (st : Store) (connId : Nat)
    (c : Connection) (broker : Broker) (creds : Credentials) : Store × String :=
  ({ st with conns := st.conns.map (fun x => if x.id == connId then
      { c with
        connection_status := validate broker.base_url creds 10000 probe,
        last_connected :=
          if validate broker.base_url creds 10000 probe = CONNECTION_STATUS_CONNECTED
          then some now else c.last_connected }
      else x) },
    validate broker.base_url creds 10000 probe)

/-- Modelled from the spec: `testConnection(connectionId)` (spec.md §4.2):
loads the row, decrypts the credentials, delegates to the Connection Validator
with the broker's base URL and a bounded timeout, maps the outcome to a
terminal status, updates `last_connected` on success and persists the new
state.  The implementation is not under the sources. -/
def testConnection (registry : List Broker) (key : Nat) (probe : ProbeOutcome)
    (now : Nat) (st : Store) (connId : Nat) : Except ApiError (Store × String) :=
  match st.conns.find? (fun c => c.id == connId) with
  | none => .error .notFoundError
  | some c =>
    match getBroker registry c.broker_id with
    | none => .error .notFoundError
    | some broker =>
      match decryptCredentials key c with
      | .error e => .error e
      | .ok creds => .ok (finishTest probe now st connId c broker creds)

/-- The freshly persisted row of a create request: secrets encrypted at rest,
initial state `pending`, never yet connected (spec.md §3, §4.2). -/
def newConnection (key : Nat) (id userId brokerId : Nat) (creds : Credentials) :
    Connection :=
  { id := id, user_id := userId, broker_id := brokerId,
    encrypted_api_key := creds.api_key.map (encrypt key),
    encrypted_api_secret := creds.api_secret.map (encrypt key),
    encrypted_access_token := creds.access_token.map (encrypt key),
    encrypted_refresh_token := creds.refresh_token.map (encrypt key),
    token_expires_at := none,
    connection_status := CONNECTION_STATUS_PENDING,
    last_connected := none }

/-- Modelled from the spec: `createConnection(userId, brokerId, credentials)`
(spec.md §4.2): validates the broker and the credentials, rejects a duplicate
active connection with `ConflictError`, persists a new `pending` row with
encrypted secrets, then synchronously invokes `testConnection` before
returning.  The implementation is not under the sources. -/
def createConnection (registry : List Broker) (key : Nat) (probe : ProbeOutcome)
    (now : Nat) (st : Store) (userId brokerId : Nat) (creds : Credentials) :
    Except ApiError (Store × String) :=
  match getBroker registry brokerId with
  | none => .error .validationError
  | some _ =>
    if !creds.hasCredential then .error .validationError
    else if st.conns.any (fun c => c.user_id == userId && c.broker_id == brokerId) then
      .error .conflictError
    else
      testConnection registry key probe now
        ⟨st.conns ++ [newConnection key st.nextId userId brokerId creds],
          st.nextId + 1⟩
        st.nextId

/-- Modelled from the spec: `deleteConnection(connectionId, userId)` (spec.md
§4.2): `NotFoundError` if the row does not exist or does not belong to the
user, otherwise a hard delete.  The implementation is not under the sources. -/
def deleteConnection (st : Store) (connId userId : Nat) : Except ApiError Store :=
  match st.conns.find? (fun c => c.id == connId) with
  | none => .error .notFoundError
  | some c =>
    if c.user_id = userId then
      .ok ⟨st.conns.filter (fun x => x.id != connId), st.nextId⟩
    else
      .error .notFoundError

/-- The redacted per-connection view returned to the UI: broker data joined
in, secrets replaced by presence flags (spec.md §4.2 `listConnections`,
§6 `GET /brokerage_connections`). -/
structure ConnectionView where
  id : Nat
  user_id : Nat
  broker_id : Nat
  has_api_key : Bool
  has_api_secret : Bool
  has_access_token : Bool
  has_refresh_token : Bool
  connection_status : String
  last_connected : Option Nat
  broker : Broker
deriving DecidableEq

/-- Redaction of one row into its view. -/
def redact (b : Broker) (c : Connection) : ConnectionView :=
  { id := c.id, user_id := c.user_id, broker_id := c.broker_id,
    has_api_key := c.encrypted_api_key.isSome,
    has_api_secret := c.encrypted_api_secret.isSome,
    has_access_token := c.encrypted_access_token.isSome,
    has_refresh_token := c.encrypted_refresh_token.isSome,
    connection_status := c.connection_status,
    last_connected := c.last_connected,
    broker := b }

/-- Modelled from the spec: `listConnections(userId)` (spec.md §4.2): all of
the user's rows with broker reference data joined in and secrets redacted.
The implementation is not under the sources. -/
def listConnections (registry : List Broker) (st : Store) (userId : Nat) :
    List ConnectionView :=
  (st.conns.filter (fun c => c.user_id == userId)).filterMap
    (fun c => (getBroker registry c.broker_id).map (fun b => redact b c))

/-- Two rows that agree on everything except the secret ciphertext values
themselves (they still must agree on the presence/absence of each secret). -/
def SameExceptSecrets (c c₂ : Connection) : Prop :=
  c.id = c₂.id ∧ c.user_id = c₂.user_id ∧ c.broker_id = c₂.broker_id ∧
  c.token_expires_at = c₂.token_expires_at ∧
  c.connection_status = c₂.connection_status ∧
  c.last_connected = c₂.last_connected ∧
  c.encrypted_api_key.isSome = c₂.encrypted_api_key.isSome ∧
  c.encrypted_api_secret.isSome = c₂.encrypted_api_secret.isSome ∧
  c.encrypted_access_token.isSome = c₂.encrypted_access_token.isSome ∧
  c.encrypted_refresh_token.isSome = c₂.encrypted_refresh_token.isSome

/-- Result body of the ad-hoc dry-run test endpoint (spec.md §6). -/
structure AdhocTestResult where
  ok : Bool
  status : String
deriving DecidableEq

/-- Modelled from the spec: `POST /brokerage_connections/test` (spec.md §6):
dry-run test with ad-hoc credentials, returning `{ok, status}` without
persisting anything.  The implementation is not under the sources. -/
def adhocTest (registry : List Broker) (probe : ProbeOutcome) (st : Store)
    (brokerId : Nat) (creds : Credentials) : Except ApiError (Store × AdhocTestResult) :=
  match getBroker registry brokerId with
  | none => .error .validationError
  | some broker =>
    if !creds.hasCredential then .error .validationError
    else
      let status := validate broker.base_url creds 10000 probe
      .ok (st, ⟨status = CONNECTION_STATUS_CONNECTED, status⟩)

/-- The stores reachable from the empty store by the lifecycle operations
(create, stored-connection test, delete) under a fixed registry and key. -/
inductive Reachable (registry : List Broker) (key : Nat) : Store → Prop where
  | init : Reachable registry key ⟨[], 0⟩
  | create (st st' : Store) (probe : ProbeOutcome) (now u b : Nat)
      (creds : Credentials) (r : String) :
      Reachable registry key st →
      createConnection registry key probe now st u b creds = .ok (st', r) →
      Reachable registry key st'
  | test (st st' : Store) (probe : ProbeOutcome) (now connId : Nat) (r : String) :
      Reachable registry key st →
      testConnection registry key probe now st connId = .ok (st', r) →
      Reachable registry key st'
  | remove (st st' : Store) (connId u : Nat) :
      Reachable registry key st →
      deleteConnection st connId u = .ok st' →
      Reachable registry key st'

/-! ## Client-side ad-hoc test handler

Translated from `handleTestConnection` in `configuration-content.tsx`
lines 168–205. -/

/-- The kind of the user-visible message (`connectionMessageType`). -/
inductive MessageType where
  | success
  | error
  | info
deriving DecidableEq

/-- The parsed JSON body of the test response as the handler sees it:
the endpoint's `{ok, status}` fields plus an error `detail`. -/
structure TestResponseBody where
  ok : Bool
  status : String
  detail : Option String
deriving DecidableEq

/-- `handleTestConnection` (`configuration-content.tsx` lines 168–205),
reduced to the user-visible message it sets: the early required-fields check,
then on `response.ok` the fixed success message, otherwise the thrown
`data.detail || fallback` message caught and prefixed. -/
def handleTestConnection (selectedBrokerId apiKey apiSecret : String)
    (respOk : Bool) (respStatus : Nat) (body : TestResponseBody) :
    String × MessageType :=
  if selectedBrokerId = "" ∨ (apiKey = "" ∧ apiSecret = "") then
    ("Please fill in all required fields (Broker and at least one of API Key/Secret).",
      .error)
  else if respOk then
    ("Connection test successful!", .success)
  else
    ("Connection test failed: " ++
      (match body.detail with
       | some d => if d = "" then "HTTP error! status: " ++ toString respStatus else d
       | none => "HTTP error! status: " ++ toString respStatus),
      .error)

/-! ## Codec lemmas -/

/-- Decryption inverts encryption under the same key. -/
theorem decrypt_encrypt (key : Nat) (s : String) :
    decrypt key (encrypt key s) = .ok s := by
  cases s with
  | mk l =>
    have hb : (l.map (fun c => c.toNat + key)).map (fun n => Char.ofNat (n - key)) = l := by
      induction l with
      | nil => rfl
      | cons c t ih => simp [ih, Nat.add_sub_cancel]
    unfold decrypt
    have hbody : (encrypt key ⟨l⟩).body = l.map (fun c => c.toNat + key) := rfl
    rw [hbody, hb, if_pos rfl]

/-- Decryption only succeeds on genuine ciphertexts of this key. -/
theorem decrypt_ok_genuine (key : Nat) (ct : Ciphertext) (s : String) :
    decrypt key ct = .ok s → encrypt key s = ct := by
  unfold decrypt
  split
  · intro h
    cases h
    assumption
  · intro h
    cases h

/-- The integrity tag of any ciphertext this key produces is positive. -/
theorem encrypt_tag_pos (key : Nat) (s : String) : 0 < (encrypt key s).tag := by
  have hmono : ∀ (l : List Char) (a : Nat),
      a ≤ l.foldl (fun x c => x * 31 + c.toNat) a := by
    intro l
    induction l with
    | nil => intro a; exact Nat.le_refl a
    | cons c l ih =>
      intro a
      calc a ≤ a * 31 + c.toNat := by
              have : a * 1 ≤ a * 31 := Nat.mul_le_mul_left a (by omega)
              omega
        _ ≤ (c :: l).foldl (fun x c => x * 31 + c.toNat) a := by
              simpa using ih (a * 31 + c.toNat)
  have := hmono s.data (key + 7)
  simp only [encrypt]
  omega

/-- Decrypting a field that was just encrypted with the same key recovers it. -/
theorem decryptField_encrypt (key : Nat) (o : Option String) :
    decryptField key (o.map (encrypt key)) = .ok o := by
  cases o with
  | none => rfl
  | some s => simp [decryptField, decrypt_encrypt, Except.map]

/-- Anatomy of a successful `testConnection`: the row and its broker were
found, every credential column decrypted, the returned status is the
validator's outcome, and the store is the input store with exactly that row's
status (and, on success, `last_connected`) replaced. -/
theorem testConnection_ok_shape (registry : List Broker) (key : Nat)
    (probe : ProbeOutcome) (now : Nat) (st : Store) (connId : Nat)
    (st' : Store) (r : String)
    (h : testConnection registry key probe now st connId = .ok (st', r)) :
    ∃ c broker creds d,
      st.conns.find? (fun x => x.id == connId) = some c ∧
      getBroker registry c.broker_id = some broker ∧
      decryptCredentials key c = .ok creds ∧
      r = validate broker.base_url creds 10000 probe ∧
      st'.nextId = st.nextId ∧
      d.id = c.id ∧ d.user_id = c.user_id ∧ d.broker_id = c.broker_id ∧
      d.encrypted_api_key = c.encrypted_api_key ∧
      d.encrypted_api_secret = c.encrypted_api_secret ∧
      d.encrypted_access_token = c.encrypted_access_token ∧
      d.encrypted_refresh_token = c.encrypted_refresh_token ∧
      d.token_expires_at = c.token_expires_at ∧
      d.connection_status = r ∧
      d.last_connected = (if r = CONNECTION_STATUS_CONNECTED then some now
                          else c.last_connected) ∧
      st'.conns = st.conns.map (fun x => if x.id == connId then d else x) := by
  unfold testConnection at h
  split at h
  · exact absurd h (by simp)
  · rename_i c hfind
    split at h
    · exact absurd h (by simp)
    · rename_i broker hbroker
      split at h
      · exact absurd h (by simp)
      · rename_i creds hdec
        cases h
        exact ⟨c, broker, creds,
          { c with
              connection_status := validate broker.base_url creds 10000 probe,
              last_connected :=
                if validate broker.base_url creds 10000 probe =
                    CONNECTION_STATUS_CONNECTED
                then some now else c.last_connected },
          hfind, hbroker, hdec, rfl, rfl, rfl, rfl, rfl,
          rfl, rfl, rfl, rfl, rfl, rfl, rfl, rfl⟩

/-- Forward evaluation of `testConnection` once the row, broker and decrypted
credentials are known. -/
theorem testConnection_eval (registry : List Broker) (key : Nat)
    (probe : ProbeOutcome) (now : Nat) (st : Store) (connId : Nat)
    (c : Connection) (broker : Broker) (creds : Credentials)
    (hfind : st.conns.find? (fun x => x.id == connId) = some c)
    (hb : getBroker registry c.broker_id = some broker)
    (hd : decryptCredentials key c = .ok creds) :
    testConnection registry key probe now st connId =
      .ok (finishTest probe now st connId c broker creds) := by
  unfold testConnection
  rw [hfind]
  show (match getBroker registry c.broker_id with
        | none => (.error .notFoundError : Except ApiError (Store × String))
        | some broker =>
          match decryptCredentials key c with
          | .error e => .error e
          | .ok creds => .ok (finishTest probe now st connId c broker creds)) =
      .ok (finishTest probe now st connId c broker creds)
  rw [hb]
  show (match decryptCredentials key c with
        | .error e => (.error e : Except ApiError (Store × String))
        | .ok creds => .ok (finishTest probe now st connId c broker creds)) =
      .ok (finishTest probe now st connId c broker creds)
  rw [hd]

/-- Decrypting the columns of a freshly encrypted credential set recovers
exactly that credential set. -/
theorem decryptCredentials_encrypt (key : Nat) (creds : Credentials)
    (c : Connection)
    (h1 : c.encrypted_api_key = creds.api_key.map (encrypt key))
    (h2 : c.encrypted_api_secret = creds.api_secret.map (encrypt key))
    (h3 : c.encrypted_access_token = creds.access_token.map (encrypt key))
    (h4 : c.encrypted_refresh_token = creds.refresh_token.map (encrypt key)) :
    decryptCredentials key c = .ok creds := by
  unfold decryptCredentials
  rw [h1, h2, h3, h4, decryptField_encrypt, decryptField_encrypt,
    decryptField_encrypt, decryptField_encrypt]

/-- Ids are never below the id counter of a well-formed store, so the freshly
persisted row is the one `find?` locates. -/
theorem find?_fresh_id (st : Store) (hWF : st.WF) (c : Connection)
    (hid : c.id = st.nextId) (l₂ : List Connection) :
    (st.conns ++ c :: l₂).find? (fun x => x.id == st.nextId) = some c := by
  rw [List.find?_append]
  have h1 : st.conns.find? (fun x => x.id == st.nextId) = none := by
    rw [List.find?_eq_none]
    intro x hx
    have := hWF.1 x hx
    simp only [beq_iff_eq]
    omega
  rw [h1]
  simp [hid]

/-- Replacing the fresh row leaves the existing rows of a well-formed store
untouched. -/
theorem map_replace_fresh (st : Store) (hWF : st.WF) (f : Connection → Connection) :
    st.conns.map (fun x => if x.id == st.nextId then f x else x) = st.conns := by
  have : ∀ x ∈ st.conns, (if x.id == st.nextId then f x else x) = x := by
    intro x hx
    have := hWF.1 x hx
    rw [if_neg]
    simp only [beq_iff_eq]
    omega
  calc st.conns.map (fun x => if x.id == st.nextId then f x else x)
      = st.conns.map id := List.map_congr_left this
    _ = st.conns := List.map_id st.conns

/-- Anatomy of a successful `createConnection` on a well-formed store: the
broker was known, the credentials non-empty, no row for the `(user, broker)`
pair existed, and the resulting store is the input store plus exactly one new
row for the pair whose status is the validator's outcome. -/
theorem createConnection_ok_shape (registry : List Broker) (key : Nat)
    (probe : ProbeOutcome) (now : Nat) (st : Store) (u b : Nat)
    (creds : Credentials) (st' : Store) (r : String)
    (hWF : st.WF)
    (h : createConnection registry key probe now st u b creds = .ok (st', r)) :
    ∃ broker c',
      getBroker registry b = some broker ∧
      creds.hasCredential = true ∧
      (∀ c ∈ st.conns, ¬(c.user_id = u ∧ c.broker_id = b)) ∧
      r = validate broker.base_url creds 10000 probe ∧
      c'.id = st.nextId ∧ c'.user_id = u ∧ c'.broker_id = b ∧
      c'.connection_status = r ∧
      c'.encrypted_api_key = creds.api_key.map (encrypt key) ∧
      c'.encrypted_api_secret = creds.api_secret.map (encrypt key) ∧
      c'.encrypted_access_token = creds.access_token.map (encrypt key) ∧
      c'.encrypted_refresh_token = creds.refresh_token.map (encrypt key) ∧
      c'.last_connected = (if r = CONNECTION_STATUS_CONNECTED then some now else none) ∧
      st' = ⟨st.conns ++ [c'], st.nextId + 1⟩ := by
  unfold createConnection at h
  split at h
  · exact absurd h (by simp)
  · rename_i broker hbroker
    split at h
    · exact absurd h (by simp)
    · split at h
      · exact absurd h (by simp)
      · rename_i hcred hdup
        have hcred' : creds.hasCredential = true := by
          cases hc : creds.hasCredential
          · rw [hc] at hcred; exact absurd rfl hcred
          · rfl
        have hdup' : ∀ c ∈ st.conns, ¬(c.user_id = u ∧ c.broker_id = b) := by
          intro c hc hcontra
          apply hdup
          rw [List.any_eq_true]
          exact ⟨c, hc, by simp [hcontra.1, hcontra.2]⟩
        obtain ⟨c, broker', creds₂, d, hfind, hbroker', hdec, hr, hnext, hdid,
          hduser, hdbroker, hde1, hde2, hde3, hde4, hdexp, hdstatus, hdlast,
          hconns⟩ := testConnection_ok_shape _ _ _ _ _ _ _ _ h
        have hfind2 : (st.conns ++ [newConnection key st.nextId u b creds]).find?
            (fun x => x.id == st.nextId) = some c := hfind
        have hfr := find?_fresh_id st hWF (newConnection key st.nextId u b creds)
          rfl []
        rw [hfind2] at hfr
        have hcN := (Option.some.inj hfr).symm
        subst hcN
        have hbroker2 : getBroker registry b = some broker' := hbroker'
        rw [hbroker] at hbroker2
        have hbb := Option.some.inj hbroker2
        subst hbb
        have hdec2 := hdec
        rw [decryptCredentials_encrypt key creds _ rfl rfl rfl rfl] at hdec2
        have ecreds := Except.ok.inj hdec2
        subst ecreds
        have hrval : r = validate broker.base_url creds 10000 probe := hr
        refine ⟨broker, d, hbroker, hcred', hdup', hrval, hdid, hduser, hdbroker,
          hdstatus, hde1, hde2, hde3, hde4, hdlast, ?_⟩
        have hnext2 : st'.nextId = st.nextId + 1 := hnext
        rw [List.map_append] at hconns
        have hold : st.conns.map (fun x => if x.id == st.nextId then d else x) =
            st.conns := map_replace_fresh st hWF (fun _ => d)
        rw [hold] at hconns
        have hNid := List.find?_some hfind
        simp only [List.map_cons, List.map_nil] at hconns
        rw [if_pos hNid] at hconns
        cases st' with
        | mk conns2 next2 =>
          simp only at hconns hnext2
          rw [hconns, hnext2]

/-- The validator maps every probe outcome to one of the four terminal test
statuses. -/
theorem validate_mem_terminal (url : String) (creds : Credentials) (t : Nat)
    (probe : ProbeOutcome) : validate url creds t probe ∈ terminalTestStatuses := by
  cases probe with
  | http s wf =>
    simp only [validate]
    split_ifs <;> decide
  | networkUnreachable =>
    exact (by decide : CONNECTION_STATUS_BROKER_UNAVAILABLE ∈ terminalTestStatuses)
  | connectionRefused =>
    exact (by decide : CONNECTION_STATUS_BROKER_UNAVAILABLE ∈ terminalTestStatuses)
  | dnsFailure =>
    exact (by decide : CONNECTION_STATUS_BROKER_UNAVAILABLE ∈ terminalTestStatuses)
  | timeout =>
    exact (by decide : CONNECTION_STATUS_BROKER_UNAVAILABLE ∈ terminalTestStatuses)

/-- A terminal test status is one of the seven defined statuses and is neither
`testing` nor `pending`. -/
theorem terminal_mem_all (r : String) (h : r ∈ terminalTestStatuses) :
    r ∈ allConnectionStatuses ∧ r ≠ CONNECTION_STATUS_TESTING ∧
      r ≠ CONNECTION_STATUS_PENDING := by
  simp only [terminalTestStatuses, List.mem_cons, List.not_mem_nil, or_false] at h
  rcases h with h | h | h | h <;> subst h <;> refine ⟨by decide, by decide, by decide⟩

/-- Redaction ignores the secret values: rows equal up to secrets redact to
the same view. -/
theorem redact_eq_of_same (b : Broker) (c c₂ : Connection)
    (h : SameExceptSecrets c c₂) : redact b c = redact b c₂ := by
  obtain ⟨h1, h2, h3, h4, h5, h6, h7, h8, h9, h10⟩ := h
  simp only [redact, h1, h2, h3, h5, h6, h7, h8, h9, h10]

/-- Anatomy of a `listConnections` view: it comes from one of the user's rows,
carries the joined broker and the row's status, and exposes only presence
flags for the secrets. -/
theorem mem_listConnections_shape (registry : List Broker) (st : Store) (u : Nat)
    (v : ConnectionView) (hv : v ∈ listConnections registry st u) :
    ∃ c, c ∈ st.conns ∧ c.user_id = u ∧
      getBroker registry c.broker_id = some v.broker ∧
      v.id = c.id ∧ v.user_id = c.user_id ∧ v.broker_id = c.broker_id ∧
      v.connection_status = c.connection_status ∧
      v.last_connected = c.last_connected ∧
      v.has_api_key = c.encrypted_api_key.isSome ∧
      v.has_api_secret = c.encrypted_api_secret.isSome ∧
      v.has_access_token = c.encrypted_access_token.isSome ∧
      v.has_refresh_token = c.encrypted_refresh_token.isSome := by
  unfold listConnections at hv
  rw [List.mem_filterMap] at hv
  obtain ⟨c, hc, hfc⟩ := hv
  rw [List.mem_filter] at hc
  obtain ⟨hcm, hcu⟩ := hc
  cases hgb : getBroker registry c.broker_id with
  | none => rw [hgb] at hfc; simp at hfc
  | some b =>
    rw [hgb] at hfc
    have hveq : redact b c = v := by simpa using hfc
    subst hveq
    exact ⟨c, hcm, by simpa using hcu, hgb, rfl, rfl, rfl, rfl, rfl, rfl, rfl, rfl, rfl⟩

/-- `listConnections` depends only on the non-secret projection of the rows. -/
theorem listConnections_congr_secrets (registry : List Broker) (u : Nat)
    {l₁ l₂ : List Connection} (h : List.Forall₂ SameExceptSecrets l₁ l₂)
    (n₁ n₂ : Nat) :
    listConnections registry ⟨l₁, n₁⟩ u = listConnections registry ⟨l₂, n₂⟩ u := by
  induction h with
  | nil => rfl
  | cons hR hF ih =>
    rename_i a b l₁' l₂'
    obtain ⟨h1, h2, h3, h4, h5, h6, h7, h8, h9, h10⟩ := hR
    simp only [listConnections] at ih ⊢
    simp only [List.filter_cons]
    rw [show (a.user_id == u) = (b.user_id == u) from by rw [h2]]
    by_cases hbu : (b.user_id == u) = true
    · rw [if_pos hbu, if_pos hbu]
      simp only [List.filterMap_cons]
      have hf : (getBroker registry a.broker_id).map (fun x => redact x a) =
          (getBroker registry b.broker_id).map (fun x => redact x b) := by
        rw [h3]
        cases getBroker registry b.broker_id with
        | none => rfl
        | some br =>
          simp [redact_eq_of_same br a b ⟨h1, h2, h3, h4, h5, h6, h7, h8, h9, h10⟩]
      rw [hf]
      cases (getBroker registry b.broker_id).map (fun x => redact x b) with
      | none => exact ih
      | some v => rw [ih]
    · rw [if_neg hbu, if_neg hbu]
      exact ih

/-- A row filtered out by id is no longer found by id. -/
theorem find?_filter_ne (l : List Connection) (connId : Nat) :
    (l.filter (fun x => x.id != connId)).find? (fun x => x.id == connId) = none := by
  rw [List.find?_eq_none]
  intro x hx
  rw [List.mem_filter] at hx
  simpa using hx.2

/-- `listConnections` distributes over the concatenation of the rows. -/
theorem listConnections_append (registry : List Broker) (l₁ l₂ : List Connection)
    (n : Nat) (u : Nat) :
    listConnections registry ⟨l₁ ++ l₂, n⟩ u =
      listConnections registry ⟨l₁, n⟩ u ++ listConnections registry ⟨l₂, n⟩ u := by
  simp [listConnections, List.filter_append, List.filterMap_append]

/-- If no row of the list is for the `(u, b)` pair then no view of the list is
for broker `b`. -/
theorem filter_views_pair (registry : List Broker) (l : List Connection)
    (u b n : Nat) (hno : ∀ c ∈ l, ¬(c.user_id = u ∧ c.broker_id = b)) :
    (listConnections registry ⟨l, n⟩ u).filter (fun v => v.broker_id == b) = [] := by
  rw [List.filter_eq_nil_iff]
  intro v hv hvb
  obtain ⟨c, hcm, hcu, _, _, _, hvbid, _⟩ :=
    mem_listConnections_shape registry ⟨l, n⟩ u v hv
  apply hno c hcm
  refine ⟨hcu, ?_⟩
  rw [← hvbid]
  simpa using hvb

/-- Replacing a row whose id matches the searched id never changes any row's
id. -/
theorem ite_replace_id (connId : Nat) (d : Connection)
    (hd : (d.id == connId) = true) (x : Connection) :
    (if x.id == connId then d else x).id = x.id := by
  by_cases hx : (x.id == connId) = true
  · rw [if_pos hx]
    have h1 : d.id = connId := by simpa using hd
    have h2 : x.id = connId := by simpa using hx
    rw [h1, h2]
  · rw [if_neg hx]

/-- Anatomy of a successful `deleteConnection`: the surviving rows are exactly
those with a different id. -/
theorem deleteConnection_ok_shape (st : Store) (connId userId : Nat) (st' : Store)
    (h : deleteConnection st connId userId = .ok st') :
    st' = ⟨st.conns.filter (fun x => x.id != connId), st.nextId⟩ := by
  unfold deleteConnection at h
  split at h
  · exact absurd h (by simp)
  · split at h
    · cases h
      rfl
    · exact absurd h (by simp)

/-- Every reachable store is well-formed: ids are fresh and distinct. -/
theorem reachable_wf (registry : List Broker) (key : Nat) (st : Store)
    (h : Reachable registry key st) : st.WF := by
  induction h with
  | init =>
    exact ⟨fun c hc => absurd hc (List.not_mem_nil c), List.Pairwise.nil⟩
  | create st st' probe now u b creds r hre hcr ih =>
    obtain ⟨broker, c', _, _, _, _, hcid, _, _, _, _, _, _, _, _, hst'⟩ :=
      createConnection_ok_shape _ _ _ _ _ _ _ _ _ _ ih hcr
    subst hst'
    constructor
    · intro x hx
      rw [List.mem_append, List.mem_singleton] at hx
      rcases hx with hx | hx
      · have := ih.1 x hx
        simp only
        omega
      · subst hx
        simp only [hcid]
        omega
    · rw [List.pairwise_append]
      refine ⟨ih.2, List.pairwise_singleton _ _, ?_⟩
      intro a ha y hy
      rw [List.mem_singleton] at hy
      subst hy
      have := ih.1 a ha
      rw [hcid]
      omega
  | test st st' probe now connId r hre htc ih =>
    obtain ⟨c, broker, creds, d, hfind, _, _, _, hnext, hdid, _, _, _, _, _, _,
      _, _, _, hconns⟩ := testConnection_ok_shape _ _ _ _ _ _ _ _ htc
    have hcid := List.find?_some hfind
    have hd2 : (d.id == connId) = true := by rw [hdid]; exact hcid
    constructor
    · intro x hx
      rw [hconns, List.mem_map] at hx
      obtain ⟨y, hy, hxy⟩ := hx
      subst hxy
      rw [ite_replace_id connId d hd2 y, hnext]
      exact ih.1 y hy
    · rw [hconns, List.pairwise_map]
      refine ih.2.imp ?_
      intro a y hne
      rw [ite_replace_id connId d hd2 a, ite_replace_id connId d hd2 y]
      exact hne
  | remove st st' connId u hre hdel ih =>
    have hst' := deleteConnection_ok_shape _ _ _ _ hdel
    subst hst'
    constructor
    · intro x hx
      rw [List.mem_filter] at hx
      exact ih.1 x hx.1
    · exact ih.2.sublist (List.filter_sublist st.conns)

/-! ## Theorems for the claims (codec and client handler) -/

/-- C3: for every non-empty secret `s`, `decrypt (encrypt s) = s`; and for
every ciphertext that is not a value `encrypt` produces under the current key,
`decrypt` fails with `DecryptionError` rather than returning any plaintext. -/
theorem codec_roundtrip_and_tamper (key : Nat) (s : String) (ct : Ciphertext)
    (_hs : s ≠ "") (hct : ∀ p : String, ct ≠ encrypt key p) :
    decrypt key (encrypt key s) = .ok s ∧ decrypt key ct = .error .decryptionError := by
  refine ⟨decrypt_encrypt key s, ?_⟩
  unfold decrypt
  split
  · rename_i h
    exact absurd h.symm (hct _)
  · rfl

/-- Witness for C3 at `key := 3`, `s := "ab"`, `ct := ⟨0, []⟩` (a genuine
ciphertext always has a positive tag, so `⟨0, []⟩` is tampered). -/
theorem codec_roundtrip_and_tamper_witness :
    decrypt 3 (encrypt 3 "ab") = .ok "ab" ∧
    decrypt 3 ⟨0, []⟩ = .error .decryptionError :=
  codec_roundtrip_and_tamper 3 "ab" ⟨0, []⟩ (by decide)
    (fun p h => by
      have := encrypt_tag_pos 3 p
      rw [← h] at this
      simp at this)

/-- C10: in the client's ad-hoc test handler, whenever the request resolves
with an HTTP success status, the user-visible outcome is the fixed message
"Connection test successful!" with type `success`, regardless of the `ok` or
`status` fields of the parsed body; any two success responses yield the same
message. -/
theorem handleTestConnection_success_ignores_body
    (selectedBrokerId apiKey apiSecret : String)
    (h1 : selectedBrokerId ≠ "") (h2 : apiKey ≠ "" ∨ apiSecret ≠ "") :
    (∀ (respStatus : Nat) (body : TestResponseBody),
      handleTestConnection selectedBrokerId apiKey apiSecret true respStatus body =
        ("Connection test successful!", .success)) ∧
    (∀ (s1 s2 : Nat) (b1 b2 : TestResponseBody),
      handleTestConnection selectedBrokerId apiKey apiSecret true s1 b1 =
        handleTestConnection selectedBrokerId apiKey apiSecret true s2 b2) := by
  have hmain : ∀ (respStatus : Nat) (body : TestResponseBody),
      handleTestConnection selectedBrokerId apiKey apiSecret true respStatus body =
        ("Connection test successful!", .success) := by
    intro respStatus body
    unfold handleTestConnection
    rw [if_neg]
    · rfl
    · rintro (h | ⟨hk, hs⟩)
      · exact h1 h
      · rcases h2 with h2 | h2
        · exact h2 hk
        · exact h2 hs
  exact ⟨hmain, fun s1 s2 b1 b2 => by rw [hmain s1 b1, hmain s2 b2]⟩

/-- Witness for C10 at concrete inputs, with a 200-status body reporting
`invalid_credentials`. -/
theorem handleTestConnection_success_ignores_body_witness :
    handleTestConnection "1" "key" "" true 200
      ⟨false, "invalid_credentials", none⟩ = ("Connection test successful!", .success) :=
  (handleTestConnection_success_ignores_body "1" "key" ""
    (by decide) (Or.inl (by decide))).1 200 ⟨false, "invalid_credentials", none⟩

/-- C4: the Connection Validator's outcome mapping: network failures and
timeouts map to `broker_unavailable`; HTTP 401/403 to `invalid_credentials`;
HTTP 5xx or a malformed body to `error`; HTTP 2xx with a well-formed payload
to `connected`, in which case `testConnection` sets `last_connected` to the
current time. -/
theorem validate_outcome_mapping (url : String) (creds : Credentials) (t : Nat) :
    validate url creds t .networkUnreachable = CONNECTION_STATUS_BROKER_UNAVAILABLE ∧
    validate url creds t .connectionRefused = CONNECTION_STATUS_BROKER_UNAVAILABLE ∧
    validate url creds t .dnsFailure = CONNECTION_STATUS_BROKER_UNAVAILABLE ∧
    validate url creds t .timeout = CONNECTION_STATUS_BROKER_UNAVAILABLE ∧
    (∀ wf, validate url creds t (.http 401 wf) = CONNECTION_STATUS_INVALID_CREDENTIALS) ∧
    (∀ wf, validate url creds t (.http 403 wf) = CONNECTION_STATUS_INVALID_CREDENTIALS) ∧
    (∀ s wf, 500 ≤ s → s ≤ 599 →
      validate url creds t (.http s wf) = CONNECTION_STATUS_ERROR) ∧
    (∀ s, 200 ≤ s → s ≤ 299 →
      validate url creds t (.http s false) = CONNECTION_STATUS_ERROR) ∧
    (∀ s, 200 ≤ s → s ≤ 299 →
      validate url creds t (.http s true) = CONNECTION_STATUS_CONNECTED) ∧
    (∀ (registry : List Broker) (key : Nat) (probe : ProbeOutcome) (now : Nat)
        (st st' : Store) (connId : Nat) (r : String),
      testConnection registry key probe now st connId = .ok (st', r) →
      r = CONNECTION_STATUS_CONNECTED →
      ∀ x ∈ st'.conns, x.id = connId → x.last_connected = some now) := by
  refine ⟨rfl, rfl, rfl, rfl, ?_, ?_, ?_, ?_, ?_, ?_⟩
  · intro wf
    simp [validate]
  · intro wf
    simp [validate]
  · intro s wf h1 h2
    simp only [validate]
    rw [if_neg (by omega), if_neg (by omega)]
  · intro s h1 h2
    simp only [validate]
    rw [if_neg (by omega), if_pos ⟨h1, h2⟩]
    rfl
  · intro s h1 h2
    simp only [validate]
    rw [if_neg (by omega), if_pos ⟨h1, h2⟩]
    rfl
  · intro registry key probe now st st' connId r h hr x hx hxid
    obtain ⟨c, broker, creds, d, hfind, hbroker, hdec, hrv, hnext, hdid, _, _,
      _, _, _, _, _, hdstatus, hdlast, hconns⟩ :=
      testConnection_ok_shape _ _ _ _ _ _ _ _ h
    rw [hconns, List.mem_map] at hx
    obtain ⟨y, hy, hxy⟩ := hx
    subst hxy
    by_cases hyid : (y.id == connId) = true
    · rw [if_pos hyid, hdlast, if_pos hr]
    · rw [if_neg hyid] at hxid
      exact absurd hxid (by simpa using hyid)

/-- Witness for C4: key instances of each mapping case, plus a concrete
stored-connection test through HTTP 200 that stamps `last_connected`. -/
theorem validate_outcome_mapping_witness :
    validate "" ⟨none, none, none, none⟩ 10000 (.http 401 true) =
      CONNECTION_STATUS_INVALID_CREDENTIALS ∧
    validate "" ⟨none, none, none, none⟩ 10000 (.http 503 true) =
      CONNECTION_STATUS_ERROR ∧
    validate "" ⟨none, none, none, none⟩ 10000 (.http 200 false) =
      CONNECTION_STATUS_ERROR ∧
    validate "" ⟨none, none, none, none⟩ 10000 (.http 200 true) =
      CONNECTION_STATUS_CONNECTED ∧
    (∀ x ∈ (Store.mk
        [{ id := 0, user_id := 1, broker_id := 1, encrypted_api_key := none,
           encrypted_api_secret := none, encrypted_access_token := none,
           encrypted_refresh_token := none, token_expires_at := none,
           connection_status := CONNECTION_STATUS_CONNECTED,
           last_connected := some 7 }] 1).conns,
      x.id = 0 → x.last_connected = some 7) := by
  have hthm := validate_outcome_mapping "" ⟨none, none, none, none⟩ 10000
  refine ⟨hthm.2.2.2.2.1 true, hthm.2.2.2.2.2.2.1 503 true (by omega) (by omega),
    hthm.2.2.2.2.2.2.2.1 200 (by omega) (by omega),
    hthm.2.2.2.2.2.2.2.2.1 200 (by omega) (by omega), ?_⟩
  exact hthm.2.2.2.2.2.2.2.2.2
    [{ id := 1, name := "b", base_url := "u", streaming_url := "s", is_live_mode := false }]
    0 (.http 200 true) 7
    (Store.mk
      [{ id := 0, user_id := 1, broker_id := 1, encrypted_api_key := none,
         encrypted_api_secret := none, encrypted_access_token := none,
         encrypted_refresh_token := none, token_expires_at := none,
         connection_status := CONNECTION_STATUS_PENDING,
         last_connected := none }] 1)
    (Store.mk
      [{ id := 0, user_id := 1, broker_id := 1, encrypted_api_key := none,
         encrypted_api_secret := none, encrypted_access_token := none,
         encrypted_refresh_token := none, token_expires_at := none,
         connection_status := CONNECTION_STATUS_CONNECTED,
         last_connected := some 7 }] 1)
    0 CONNECTION_STATUS_CONNECTED (by rfl) rfl

/-- C8: the ad-hoc dry-run test persists nothing: the stored set of
connections is unchanged and the operation only returns `{ok, status}`. -/
theorem adhocTest_no_persist (registry : List Broker) (probe : ProbeOutcome)
    (st : Store) (brokerId : Nat) (creds : Credentials) (st' : Store)
    (res : AdhocTestResult)
    (h : adhocTest registry probe st brokerId creds = .ok (st', res)) :
    st' = st ∧ ∃ broker, getBroker registry brokerId = some broker ∧
      res.status = validate broker.base_url creds 10000 probe ∧
      res.ok = decide (res.status = CONNECTION_STATUS_CONNECTED) := by
  unfold adhocTest at h
  split at h
  · exact absurd h (by simp)
  · rename_i broker hbroker
    split at h
    · exact absurd h (by simp)
    · cases h
      exact ⟨rfl, broker, hbroker, rfl, rfl⟩

/-- Witness for C8 at a concrete registry, store and probe. -/
theorem adhocTest_no_persist_witness :
    (Store.mk [] 5 : Store) =
      (Store.mk [] 5 : Store) ∧
    ∃ broker, getBroker
        [{ id := 1, name := "b", base_url := "u", streaming_url := "s",
           is_live_mode := false }] 1 = some broker ∧
      (AdhocTestResult.mk true CONNECTION_STATUS_CONNECTED).status =
        validate broker.base_url ⟨some "k", none, none, none⟩ 10000 (.http 200 true) ∧
      (AdhocTestResult.mk true CONNECTION_STATUS_CONNECTED).ok =
        decide ((AdhocTestResult.mk true CONNECTION_STATUS_CONNECTED).status =
          CONNECTION_STATUS_CONNECTED) :=
  adhocTest_no_persist
    [{ id := 1, name := "b", base_url := "u", streaming_url := "s",
       is_live_mode := false }]
    (.http 200 true) (Store.mk [] 5) 1 ⟨some "k", none, none, none⟩
    (Store.mk [] 5) (AdhocTestResult.mk true CONNECTION_STATUS_CONNECTED) (by rfl)

/-- C5: every record returned by `listConnections` carries the joined broker
reference data and the connection status but never the secret values — only
presence flags: the output is invariant under changing the stored secret
values (with presence preserved). -/
theorem listConnections_secrets_redacted (registry : List Broker)
    (st st₂ : Store) (u : Nat) :
    (∀ v ∈ listConnections registry st u,
      ∃ c, c ∈ st.conns ∧ c.user_id = u ∧
        getBroker registry c.broker_id = some v.broker ∧
        v.connection_status = c.connection_status ∧
        v.has_api_key = c.encrypted_api_key.isSome ∧
        v.has_api_secret = c.encrypted_api_secret.isSome ∧
        v.has_access_token = c.encrypted_access_token.isSome ∧
        v.has_refresh_token = c.encrypted_refresh_token.isSome) ∧
    (List.Forall₂ SameExceptSecrets st.conns st₂.conns →
      listConnections registry st u = listConnections registry st₂ u) := by
  constructor
  · intro v hv
    obtain ⟨c, hcm, hcu, hgb, _, _, _, hst, hlc, f1, f2, f3, f4⟩ :=
      mem_listConnections_shape registry st u v hv
    exact ⟨c, hcm, hcu, hgb, hst, f1, f2, f3, f4⟩
  · intro h
    cases st with
    | mk l₁ n₁ =>
      cases st₂ with
      | mk l₂ n₂ => exact listConnections_congr_secrets registry u h n₁ n₂

/-- Witness for C5: a store with one row holding a secret, and a second store
identical except for the secret ciphertext bytes. -/
theorem listConnections_secrets_redacted_witness :
    ((⟨0, 1, 1, true, false, false, false, CONNECTION_STATUS_CONNECTED, none,
        ⟨1, "b", "u", "s", false⟩⟩ : ConnectionView) ∈
      listConnections [⟨1, "b", "u", "s", false⟩]
        ⟨[⟨0, 1, 1, some ⟨1, [5]⟩, none, none, none, none,
           CONNECTION_STATUS_CONNECTED, none⟩], 1⟩ 1) ∧
    (∃ c, c ∈ (⟨[⟨0, 1, 1, some ⟨1, [5]⟩, none, none, none, none,
           CONNECTION_STATUS_CONNECTED, none⟩], 1⟩ : Store).conns ∧ c.user_id = 1 ∧
      getBroker [⟨1, "b", "u", "s", false⟩] c.broker_id =
        some (⟨0, 1, 1, true, false, false, false, CONNECTION_STATUS_CONNECTED, none,
          ⟨1, "b", "u", "s", false⟩⟩ : ConnectionView).broker ∧
      (⟨0, 1, 1, true, false, false, false, CONNECTION_STATUS_CONNECTED, none,
        ⟨1, "b", "u", "s", false⟩⟩ : ConnectionView).connection_status =
          c.connection_status ∧
      (⟨0, 1, 1, true, false, false, false, CONNECTION_STATUS_CONNECTED, none,
        ⟨1, "b", "u", "s", false⟩⟩ : ConnectionView).has_api_key =
          c.encrypted_api_key.isSome ∧
      (⟨0, 1, 1, true, false, false, false, CONNECTION_STATUS_CONNECTED, none,
        ⟨1, "b", "u", "s", false⟩⟩ : ConnectionView).has_api_secret =
          c.encrypted_api_secret.isSome ∧
      (⟨0, 1, 1, true, false, false, false, CONNECTION_STATUS_CONNECTED, none,
        ⟨1, "b", "u", "s", false⟩⟩ : ConnectionView).has_access_token =
          c.encrypted_access_token.isSome ∧
      (⟨0, 1, 1, true, false, false, false, CONNECTION_STATUS_CONNECTED, none,
        ⟨1, "b", "u", "s", false⟩⟩ : ConnectionView).has_refresh_token =
          c.encrypted_refresh_token.isSome) ∧
    (listConnections [⟨1, "b", "u", "s", false⟩]
        ⟨[⟨0, 1, 1, some ⟨1, [5]⟩, none, none, none, none,
           CONNECTION_STATUS_CONNECTED, none⟩], 1⟩ 1 =
      listConnections [⟨1, "b", "u", "s", false⟩]
        ⟨[⟨0, 1, 1, some ⟨2, [6]⟩, none, none, none, none,
           CONNECTION_STATUS_CONNECTED, none⟩], 1⟩ 1) := by
  refine ⟨by decide, ?_, ?_⟩
  · exact (listConnections_secrets_redacted [⟨1, "b", "u", "s", false⟩]
      ⟨[⟨0, 1, 1, some ⟨1, [5]⟩, none, none, none, none,
         CONNECTION_STATUS_CONNECTED, none⟩], 1⟩
      ⟨[⟨0, 1, 1, some ⟨2, [6]⟩, none, none, none, none,
         CONNECTION_STATUS_CONNECTED, none⟩], 1⟩ 1).1 _ (by decide)
  · exact (listConnections_secrets_redacted [⟨1, "b", "u", "s", false⟩]
      ⟨[⟨0, 1, 1, some ⟨1, [5]⟩, none, none, none, none,
         CONNECTION_STATUS_CONNECTED, none⟩], 1⟩
      ⟨[⟨0, 1, 1, some ⟨2, [6]⟩, none, none, none, none,
         CONNECTION_STATUS_CONNECTED, none⟩], 1⟩ 1).2
      (.cons ⟨rfl, rfl, rfl, rfl, rfl, rfl, rfl, rfl, rfl, rfl⟩ .nil)

/-- C9: `deleteConnection` fails with `NotFoundError` whenever the connection
does not belong to the user, and otherwise permanently removes the record: it
no longer appears in `listConnections` output and a subsequent
`testConnection` fails with `NotFoundError`. -/
theorem deleteConnection_spec (registry : List Broker) (key : Nat)
    (probe : ProbeOutcome) (now : Nat) (st : Store) (connId userId : Nat) :
    ((∀ c ∈ st.conns, c.id = connId → c.user_id ≠ userId) →
      deleteConnection st connId userId = .error .notFoundError) ∧
    (∀ st', deleteConnection st connId userId = .ok st' →
      (∀ userId2, ∀ v ∈ listConnections registry st' userId2, v.id ≠ connId) ∧
      testConnection registry key probe now st' connId = .error .notFoundError) := by
  constructor
  · intro hno
    unfold deleteConnection
    cases hfind : st.conns.find? (fun x => x.id == connId) with
    | none => rfl
    | some c =>
      have hid : c.id = connId := by simpa using List.find?_some hfind
      have hmem : c ∈ st.conns := List.mem_of_find?_eq_some hfind
      show (if c.user_id = userId then
          (Except.ok ⟨st.conns.filter (fun x => x.id != connId), st.nextId⟩ :
            Except ApiError Store)
        else .error .notFoundError) = .error .notFoundError
      rw [if_neg (hno c hmem hid)]
  · intro st' h
    unfold deleteConnection at h
    split at h
    · exact absurd h (by simp)
    · rename_i c hfind
      split at h
      · cases h
        constructor
        · intro userId2 v hv
          obtain ⟨c₂, hc₂m, _, _, hvid, _⟩ :=
            mem_listConnections_shape registry _ userId2 v hv
          have : c₂ ∈ st.conns.filter (fun x => x.id != connId) := hc₂m
          rw [List.mem_filter] at this
          rw [hvid]
          simpa using this.2
        · unfold testConnection
          rw [show (Store.mk (st.conns.filter (fun x => x.id != connId))
              st.nextId).conns.find? (fun x => x.id == connId) = none
            from find?_filter_ne st.conns connId]
      · exact absurd h (by simp)

/-- Witness for C9: a store whose only row belongs to user 2 rejects user 1's
delete; a store whose only row belongs to user 1 accepts it, after which the
row is gone. -/
theorem deleteConnection_spec_witness :
    deleteConnection
      ⟨[⟨0, 2, 1, none, none, none, none, none, CONNECTION_STATUS_PENDING, none⟩], 1⟩
      0 1 = .error .notFoundError ∧
    ((∀ userId2, ∀ v ∈ listConnections [⟨1, "b", "u", "s", false⟩]
        (⟨[], 1⟩ : Store) userId2, v.id ≠ 0) ∧
      testConnection [⟨1, "b", "u", "s", false⟩] 0 (.http 200 true) 5
        (⟨[], 1⟩ : Store) 0 = .error .notFoundError) := by
  constructor
  · exact (deleteConnection_spec [⟨1, "b", "u", "s", false⟩] 0 (.http 200 true) 5
      ⟨[⟨0, 2, 1, none, none, none, none, none, CONNECTION_STATUS_PENDING, none⟩], 1⟩
      0 1).1 (by decide)
  · exact (deleteConnection_spec [⟨1, "b", "u", "s", false⟩] 0 (.http 200 true) 5
      ⟨[⟨0, 1, 1, none, none, none, none, none, CONNECTION_STATUS_PENDING, none⟩], 1⟩
      0 1).2 ⟨[], 1⟩ (by rfl)

/-- C6: at every point of every reachable lifecycle, every stored connection's
`connection_status` is one of exactly the seven defined status strings; no
other value ever occurs. -/
theorem connection_status_closed (registry : List Broker) (key : Nat)
    (st : Store) (h : Reachable registry key st) :
    ∀ c ∈ st.conns, c.connection_status ∈ allConnectionStatuses := by
  induction h with
  | init =>
    intro c hc
    exact absurd hc (List.not_mem_nil c)
  | create st st' probe now u b creds r hre hcr ih =>
    have hWF := reachable_wf registry key st hre
    obtain ⟨broker, c', _, _, _, hr, _, _, _, hcst, _, _, _, _, _, hst'⟩ :=
      createConnection_ok_shape _ _ _ _ _ _ _ _ _ _ hWF hcr
    subst hst'
    intro x hx
    rw [List.mem_append, List.mem_singleton] at hx
    rcases hx with hx | hx
    · exact ih x hx
    · subst hx
      rw [hcst, hr]
      exact (terminal_mem_all _ (validate_mem_terminal _ _ _ _)).1
  | test st st' probe now connId r hre htc ih =>
    obtain ⟨c, broker, creds, d, _, _, _, hr, _, _, _, _, _, _, _, _, _,
      hdstatus, _, hconns⟩ := testConnection_ok_shape _ _ _ _ _ _ _ _ htc
    intro x hx
    rw [hconns, List.mem_map] at hx
    obtain ⟨y, hy, hxy⟩ := hx
    subst hxy
    by_cases hyid : (y.id == connId) = true
    · rw [if_pos hyid, hdstatus, hr]
      exact (terminal_mem_all _ (validate_mem_terminal _ _ _ _)).1
    · rw [if_neg hyid]
      exact ih y hy
  | remove st st' connId u hre hdel ih =>
    have hst' := deleteConnection_ok_shape _ _ _ _ hdel
    subst hst'
    intro x hx
    rw [List.mem_filter] at hx
    exact ih x hx.1

/-- Witness for C6: the row of the store reached by one concrete successful
create has one of the seven statuses. -/
theorem connection_status_closed_witness :
    ({ id := 0, user_id := 1, broker_id := 1,
       encrypted_api_key := some (encrypt 0 "k"), encrypted_api_secret := none,
       encrypted_access_token := none, encrypted_refresh_token := none,
       token_expires_at := none,
       connection_status := CONNECTION_STATUS_CONNECTED,
       last_connected := some 5 } : Connection).connection_status ∈
      allConnectionStatuses :=
  connection_status_closed
    [{ id := 1, name := "b", base_url := "u", streaming_url := "s",
       is_live_mode := false }] 0
    (Store.mk
      [{ id := 0, user_id := 1, broker_id := 1,
         encrypted_api_key := some (encrypt 0 "k"), encrypted_api_secret := none,
         encrypted_access_token := none, encrypted_refresh_token := none,
         token_expires_at := none,
         connection_status := CONNECTION_STATUS_CONNECTED,
         last_connected := some 5 }] 1)
    (.create ⟨[], 0⟩ _ (.http 200 true) 5 1 1 ⟨some "k", none, none, none⟩
      CONNECTION_STATUS_CONNECTED .init (by rfl))
    { id := 0, user_id := 1, broker_id := 1,
      encrypted_api_key := some (encrypt 0 "k"), encrypted_api_secret := none,
      encrypted_access_token := none, encrypted_refresh_token := none,
      token_expires_at := none,
      connection_status := CONNECTION_STATUS_CONNECTED,
      last_connected := some 5 }
    (by decide)

/-- C7: `testConnection` is idempotent: a second run under the same external
broker conditions returns the same status, and no run leaves the stored
connection in the `testing` (or `pending`) state. -/
theorem testConnection_idempotent (registry : List Broker) (key : Nat)
    (probe : ProbeOutcome) (now now₂ : Nat) (st : Store) (connId : Nat)
    (st₁ : Store) (s₁ : String)
    (h : testConnection registry key probe now st connId = .ok (st₁, s₁)) :
    (∃ st₂, testConnection registry key probe now₂ st₁ connId = .ok (st₂, s₁)) ∧
    s₁ ≠ CONNECTION_STATUS_TESTING ∧ s₁ ≠ CONNECTION_STATUS_PENDING ∧
    (∀ x ∈ st₁.conns, x.id = connId → x.connection_status = s₁) := by
  obtain ⟨c, broker, creds, d, hfind, hbroker, hdec, hr, hnext, hdid, hduser,
    hdbroker, hde1, hde2, hde3, hde4, hdexp, hdstatus, hdlast, hconns⟩ :=
    testConnection_ok_shape _ _ _ _ _ _ _ _ h
  have hcid := List.find?_some hfind
  have hd2 : (d.id == connId) = true := by rw [hdid]; exact hcid
  have hfind₁ : st₁.conns.find? (fun x => x.id == connId) = some d := by
    rw [hconns, List.find?_map]
    have hcomp : ((fun x : Connection => x.id == connId) ∘
        (fun x => if x.id == connId then d else x)) =
        (fun x : Connection => x.id == connId) := by
      funext x
      exact congrArg (fun n => n == connId) (ite_replace_id connId d hd2 x)
    rw [hcomp, hfind]
    show some (if c.id == connId then d else c) = some d
    rw [if_pos hcid]
  have hb' : getBroker registry d.broker_id = some broker := by
    rw [hdbroker]
    exact hbroker
  have hd' : decryptCredentials key d = .ok creds := by
    unfold decryptCredentials at hdec ⊢
    rw [hde1, hde2, hde3, hde4]
    exact hdec
  have h₂ := testConnection_eval registry key probe now₂ st₁ connId d broker creds
    hfind₁ hb' hd'
  have hterm := validate_mem_terminal broker.base_url creds 10000 probe
  rw [← hr] at hterm
  refine ⟨⟨(finishTest probe now₂ st₁ connId d broker creds).1, ?_⟩,
    (terminal_mem_all s₁ hterm).2.1, (terminal_mem_all s₁ hterm).2.2, ?_⟩
  · rw [h₂]
    have hpair : finishTest probe now₂ st₁ connId d broker creds =
        ((finishTest probe now₂ st₁ connId d broker creds).1, s₁) :=
      Prod.ext rfl hr.symm
    rw [hpair]
  · intro x hx hxid
    rw [hconns, List.mem_map] at hx
    obtain ⟨y, hy, hxy⟩ := hx
    subst hxy
    by_cases hyid : (y.id == connId) = true
    · rw [if_pos hyid]
      exact hdstatus
    · rw [if_neg hyid] at hxid
      exact absurd hxid (by simpa using hyid)

/-- Witness for C7: a concrete stored connection tested twice through an
HTTP 200 probe. -/
theorem testConnection_idempotent_witness :
    (testConnection
      [{ id := 1, name := "b", base_url := "u", streaming_url := "s",
         is_live_mode := false }] 0 (.http 200 true) 5
      (Store.mk
        [{ id := 0, user_id := 1, broker_id := 1, encrypted_api_key := none,
           encrypted_api_secret := none, encrypted_access_token := none,
           encrypted_refresh_token := none, token_expires_at := none,
           connection_status := CONNECTION_STATUS_PENDING,
           last_connected := none }] 1) 0 =
      .ok (Store.mk
        [{ id := 0, user_id := 1, broker_id := 1, encrypted_api_key := none,
           encrypted_api_secret := none, encrypted_access_token := none,
           encrypted_refresh_token := none, token_expires_at := none,
           connection_status := CONNECTION_STATUS_CONNECTED,
           last_connected := some 5 }] 1, CONNECTION_STATUS_CONNECTED)) ∧
    ((∃ st₂, testConnection
        [{ id := 1, name := "b", base_url := "u", streaming_url := "s",
           is_live_mode := false }] 0 (.http 200 true) 9
        (Store.mk
          [{ id := 0, user_id := 1, broker_id := 1, encrypted_api_key := none,
             encrypted_api_secret := none, encrypted_access_token := none,
             encrypted_refresh_token := none, token_expires_at := none,
             connection_status := CONNECTION_STATUS_CONNECTED,
             last_connected := some 5 }] 1) 0 =
        .ok (st₂, CONNECTION_STATUS_CONNECTED)) ∧
      CONNECTION_STATUS_CONNECTED ≠ CONNECTION_STATUS_TESTING ∧
      CONNECTION_STATUS_CONNECTED ≠ CONNECTION_STATUS_PENDING ∧
      (∀ x ∈ (Store.mk
          [{ id := 0, user_id := 1, broker_id := 1, encrypted_api_key := none,
             encrypted_api_secret := none, encrypted_access_token := none,
             encrypted_refresh_token := none, token_expires_at := none,
             connection_status := CONNECTION_STATUS_CONNECTED,
             last_connected := some 5 }] 1).conns,
        x.id = 0 → x.connection_status = CONNECTION_STATUS_CONNECTED)) :=
  ⟨by rfl,
   testConnection_idempotent
     [{ id := 1, name := "b", base_url := "u", streaming_url := "s",
        is_live_mode := false }] 0 (.http 200 true) 5 9
     (Store.mk
       [{ id := 0, user_id := 1, broker_id := 1, encrypted_api_key := none,
          encrypted_api_secret := none, encrypted_access_token := none,
          encrypted_refresh_token := none, token_expires_at := none,
          connection_status := CONNECTION_STATUS_PENDING,
          last_connected := none }] 1) 0
     (Store.mk
       [{ id := 0, user_id := 1, broker_id := 1, encrypted_api_key := none,
          encrypted_api_secret := none, encrypted_access_token := none,
          encrypted_refresh_token := none, token_expires_at := none,
          connection_status := CONNECTION_STATUS_CONNECTED,
          last_connected := some 5 }] 1) CONNECTION_STATUS_CONNECTED (by rfl)⟩

/-- C1: on a well-formed store with no prior connection for the pair, a
successful `createConnection` persists the row and synchronously tests it, so
that `listConnections` immediately shows exactly one record for the pair whose
status is one of the four terminal test statuses — never `pending` or
`testing`. -/
theorem createConnection_add_and_verify (registry : List Broker) (key : Nat)
    (probe : ProbeOutcome) (now : Nat) (st : Store) (u b : Nat)
    (creds : Credentials) (st' : Store) (r : String)
    (hWF : st.WF)
    (hno : ∀ c ∈ st.conns, ¬(c.user_id = u ∧ c.broker_id = b))
    (h : createConnection registry key probe now st u b creds = .ok (st', r)) :
    ∃ v : ConnectionView,
      (listConnections registry st' u).filter (fun v => v.broker_id == b) = [v] ∧
      v.user_id = u ∧ v.connection_status = r ∧ r ∈ terminalTestStatuses ∧
      r ≠ CONNECTION_STATUS_PENDING ∧ r ≠ CONNECTION_STATUS_TESTING := by
  obtain ⟨broker, c', hbroker, hcred, hdup, hr, hcid, hcu, hcb, hcst, he1, he2,
    he3, he4, hlast, hst'⟩ := createConnection_ok_shape _ _ _ _ _ _ _ _ _ _ hWF h
  subst hst'
  have hterm := validate_mem_terminal broker.base_url creds 10000 probe
  rw [← hr] at hterm
  refine ⟨redact broker c', ?_, hcu, hcst, hterm,
    (terminal_mem_all r hterm).2.2, (terminal_mem_all r hterm).2.1⟩
  rw [listConnections_append registry st.conns [c'] (st.nextId + 1) u,
    List.filter_append,
    filter_views_pair registry st.conns u b (st.nextId + 1) hno,
    List.nil_append]
  have hsing : listConnections registry ⟨[c'], st.nextId + 1⟩ u =
      [redact broker c'] := by
    unfold listConnections
    simp [hcu, hcb, hbroker]
  rw [hsing]
  have hvb : ((redact broker c').broker_id == b) = true := by
    show (c'.broker_id == b) = true
    rw [hcb]
    exact beq_self_eq_true b
  simp [List.filter_cons, hvb]

/-- Witness for C1: a concrete create on the empty store through an HTTP 200
probe. -/
theorem createConnection_add_and_verify_witness :
    (Store.mk [] 0).WF ∧
    (createConnection
      [{ id := 1, name := "b", base_url := "u", streaming_url := "s",
         is_live_mode := false }] 3 (.http 200 true) 5 (Store.mk [] 0) 1 1
      ⟨some "k", none, none, none⟩ =
      .ok (Store.mk
        [{ id := 0, user_id := 1, broker_id := 1,
           encrypted_api_key := some (encrypt 3 "k"),
           encrypted_api_secret := none, encrypted_access_token := none,
           encrypted_refresh_token := none, token_expires_at := none,
           connection_status := CONNECTION_STATUS_CONNECTED,
           last_connected := some 5 }] 1, CONNECTION_STATUS_CONNECTED)) ∧
    (∃ v : ConnectionView,
      (listConnections
        [{ id := 1, name := "b", base_url := "u", streaming_url := "s",
           is_live_mode := false }]
        (Store.mk
          [{ id := 0, user_id := 1, broker_id := 1,
             encrypted_api_key := some (encrypt 3 "k"),
             encrypted_api_secret := none, encrypted_access_token := none,
             encrypted_refresh_token := none, token_expires_at := none,
             connection_status := CONNECTION_STATUS_CONNECTED,
             last_connected := some 5 }] 1) 1).filter
          (fun v => v.broker_id == 1) = [v] ∧
      v.user_id = 1 ∧ v.connection_status = CONNECTION_STATUS_CONNECTED ∧
      CONNECTION_STATUS_CONNECTED ∈ terminalTestStatuses ∧
      CONNECTION_STATUS_CONNECTED ≠ CONNECTION_STATUS_PENDING ∧
      CONNECTION_STATUS_CONNECTED ≠ CONNECTION_STATUS_TESTING) :=
  ⟨⟨fun c hc => absurd hc (List.not_mem_nil c), List.Pairwise.nil⟩,
   by rfl,
   createConnection_add_and_verify
     [{ id := 1, name := "b", base_url := "u", streaming_url := "s",
        is_live_mode := false }] 3 (.http 200 true) 5 (Store.mk [] 0) 1 1
     ⟨some "k", none, none, none⟩
     (Store.mk
       [{ id := 0, user_id := 1, broker_id := 1,
          encrypted_api_key := some (encrypt 3 "k"),
          encrypted_api_secret := none, encrypted_access_token := none,
          encrypted_refresh_token := none, token_expires_at := none,
          connection_status := CONNECTION_STATUS_CONNECTED,
          last_connected := some 5 }] 1) CONNECTION_STATUS_CONNECTED
     ⟨fun c hc => absurd hc (List.not_mem_nil c), List.Pairwise.nil⟩
     (fun c hc => absurd hc (List.not_mem_nil c))
     (by rfl)⟩

/-- C2: at most one connection per `(user, broker)` pair: an otherwise valid
create while a connection for the pair exists fails with `ConflictError` and
never overwrites, and a successful create preserves pairwise-distinct pairs. -/
theorem createConnection_unique_active (registry : List Broker) (key : Nat)
    (probe : ProbeOutcome) (now : Nat) (st : Store) (u b : Nat)
    (creds : Credentials)
    (hWF : st.WF)
    (huniq : st.conns.Pairwise
      (fun c₁ c₂ => ¬(c₁.user_id = c₂.user_id ∧ c₁.broker_id = c₂.broker_id))) :
    ((∃ c ∈ st.conns, c.user_id = u ∧ c.broker_id = b) →
      (getBroker registry b).isSome = true → creds.hasCredential = true →
      createConnection registry key probe now st u b creds =
        .error .conflictError) ∧
    (∀ st' r, createConnection registry key probe now st u b creds = .ok (st', r) →
      st'.conns.Pairwise
        (fun c₁ c₂ => ¬(c₁.user_id = c₂.user_id ∧ c₁.broker_id = c₂.broker_id))) := by
  constructor
  · rintro ⟨c, hcm, hcu, hcb⟩ hbr hcred
    obtain ⟨broker, hbroker⟩ := Option.isSome_iff_exists.mp hbr
    unfold createConnection
    rw [hbroker]
    show (if !creds.hasCredential then
        (.error .validationError : Except ApiError (Store × String))
      else if st.conns.any (fun x => x.user_id == u && x.broker_id == b) then
        .error .conflictError
      else testConnection registry key probe now
        ⟨st.conns ++ [newConnection key st.nextId u b creds], st.nextId + 1⟩
        st.nextId) = .error .conflictError
    rw [if_neg (by simp [hcred])]
    have hany : st.conns.any (fun x => x.user_id == u && x.broker_id == b) = true := by
      rw [List.any_eq_true]
      exact ⟨c, hcm, by simp [hcu, hcb]⟩
    rw [if_pos hany]
  · intro st' r h
    obtain ⟨broker, c', _, _, hdup', _, _, hcu, hcb, _, _, _, _, _, _, hst'⟩ :=
      createConnection_ok_shape _ _ _ _ _ _ _ _ _ _ hWF h
    subst hst'
    rw [List.pairwise_append]
    refine ⟨huniq, List.pairwise_singleton _ _, ?_⟩
    intro a ha y hy
    rw [List.mem_singleton] at hy
    subst hy
    intro hcontra
    exact hdup' a ha ⟨by rw [← hcu]; exact hcontra.1, by rw [← hcb]; exact hcontra.2⟩

/-- Witness for C2: a duplicate create on a one-row store is rejected with
`ConflictError`; a fresh create on the empty store keeps the pairs distinct. -/
theorem createConnection_unique_active_witness :
    (createConnection
      [{ id := 1, name := "b", base_url := "u", streaming_url := "s",
         is_live_mode := false }] 3 (.http 200 true) 5
      (Store.mk
        [{ id := 0, user_id := 1, broker_id := 1, encrypted_api_key := none,
           encrypted_api_secret := none, encrypted_access_token := none,
           encrypted_refresh_token := none, token_expires_at := none,
           connection_status := CONNECTION_STATUS_CONNECTED,
           last_connected := none }] 1) 1 1 ⟨some "k", none, none, none⟩ =
      .error .conflictError) ∧
    ((Store.mk
      [{ id := 0, user_id := 1, broker_id := 1,
         encrypted_api_key := some (encrypt 3 "k"),
         encrypted_api_secret := none, encrypted_access_token := none,
         encrypted_refresh_token := none, token_expires_at := none,
         connection_status := CONNECTION_STATUS_CONNECTED,
         last_connected := some 5 }] 1).conns.Pairwise
      (fun c₁ c₂ => ¬(c₁.user_id = c₂.user_id ∧ c₁.broker_id = c₂.broker_id))) :=
  ⟨(createConnection_unique_active
      [{ id := 1, name := "b", base_url := "u", streaming_url := "s",
         is_live_mode := false }] 3 (.http 200 true) 5
      (Store.mk
        [{ id := 0, user_id := 1, broker_id := 1, encrypted_api_key := none,
           encrypted_api_secret := none, encrypted_access_token := none,
           encrypted_refresh_token := none, token_expires_at := none,
           connection_status := CONNECTION_STATUS_CONNECTED,
           last_connected := none }] 1) 1 1 ⟨some "k", none, none, none⟩
      ⟨by decide, List.pairwise_singleton _ _⟩
      (List.pairwise_singleton _ _)).1
    ⟨{ id := 0, user_id := 1, broker_id := 1, encrypted_api_key := none,
       encrypted_api_secret := none, encrypted_access_token := none,
       encrypted_refresh_token := none, token_expires_at := none,
       connection_status := CONNECTION_STATUS_CONNECTED,
       last_connected := none }, by decide, by decide, by decide⟩
    (by decide) (by decide),
   (createConnection_unique_active
      [{ id := 1, name := "b", base_url := "u", streaming_url := "s",
         is_live_mode := false }] 3 (.http 200 true) 5 (Store.mk [] 0) 1 1
      ⟨some "k", none, none, none⟩
      ⟨fun c hc => absurd hc (List.not_mem_nil c), List.Pairwise.nil⟩
      List.Pairwise.nil).2
    (Store.mk
      [{ id := 0, user_id := 1, broker_id := 1,
         encrypted_api_key := some (encrypt 3 "k"),
         encrypted_api_secret := none, encrypted_access_token := none,
         encrypted_refresh_token := none, token_expires_at := none,
         connection_status := CONNECTION_STATUS_CONNECTED,
         last_connected := some 5 }] 1) CONNECTION_STATUS_CONNECTED (by rfl)⟩

end Brokerage
